import Mathlib

/-!
Verification development for the Storage backend file/folder hierarchy and
storage-accounting subsystem (`backend/routes/files.js`).

The JavaScript routes are shallowly embedded as pure Lean functions over an
explicit database state (a list of node records, mirroring the Mongo `File`
collection), an explicit content store (a list of keys, mirroring the files
multer writes under `uploads/`), and an explicit quota-stats table.
`findOne`-style queries are modelled as `List.find?` over the collection in
insertion order; `fs.unlinkSync` removes a key from the content-store list.
Unbounded `while` loops (`checkIfSubfolder`) take an explicit fuel argument,
with `none` meaning the loop has not returned within that fuel.
-/

namespace Storage

/-- A record of the Mongo `File` collection: a file or folder node.
Field names follow the schema as used by `backend/routes/files.js`;
object ids are modelled as `Nat`, timestamps as `Nat` milliseconds. -/
structure Node where
  id : Nat
  userId : Nat
  name : String := ""
  originalName : String := ""
  isFolder : Bool := false
  ftype : String := "document"
  size : Nat := 0
  path : Option String := none
  parentFolder : Option Nat := none
  inTrash : Bool := false
  deletedAt : Option Nat := none
  permanentDeleteAt : Option Nat := none
  isPublic : Bool := false
  publicUrl : Option String := none
  sharedWith : List Nat := []
  createdAt : Nat := 0
  updatedAt : Nat := 0
deriving Repr, DecidableEq

/-- The `File` collection, in insertion order (Mongo natural order). -/
abbrev DB := List Node

/-- `File.findById(id)`. -/
def findById (db : DB) (i : Nat) : Option Node :=
  db.find? fun f => f.id == i

/-- `File.findOne({ _id: fid, userId: uid })`. -/
def findOwned (db : DB) (uid fid : Nat) : Option Node :=
  db.find? fun f => f.id == fid && f.userId == uid

/-- The target-folder lookup of the move route:
`File.findOne({ _id: t, userId: uid, isFolder: true })`.
Note the query has no `inTrash` filter. -/
def findTargetFolder (db : DB) (uid t : Nat) : Option Node :=
  db.find? fun f => f.id == t && f.userId == uid && f.isFolder

/-- The parent-folder legality lookup of the upload routes:
`File.findOne({ _id: pid, userId: uid, isFolder: true, inTrash: false })`. -/
def findParentFolder (db : DB) (uid pid : Nat) : Option Node :=
  db.find? fun f => f.id == pid && f.userId == uid && f.isFolder && !f.inTrash

/-- Saving a modified document: replace the node with id `fid` by `g` applied
to it, leaving every other node unchanged. -/
def updateNode (db : DB) (fid : Nat) (g : Node → Node) : DB :=
  db.map fun f => if f.id == fid then g f else f

/-- `checkIfSubfolder(parentFolderId, potentialSubfolderId)` from
`backend/routes/files.js`: walk `parentFolder` links upward from
`cur`, returning true on reaching `target`, false on reaching root (`null`)
or a missing node.  The JavaScript loop is unbounded; `fuel` counts loop
iterations and `none` means the loop has not returned within `fuel` steps. -/
def checkIfSubfolder : Nat → DB → Option Nat → Nat → Option Bool
  | _, _, none, _ => some false
  | 0, _, some _, _ => none
  | fuel + 1, db, some cur, target =>
    match findById db cur with
    | none => some false
    | some folder =>
      if folder.id == target then some true
      else checkIfSubfolder fuel db folder.parentFolder target

/-- The error responses of the move route. -/
inductive MoveError
  | notFound
  | targetNotFound
  | selfMove
  | cycle
deriving Repr, DecidableEq

/-- Response of the move route: an error, or the saved collection. -/
inductive MoveResult
  | err (e : MoveError)
  | ok (db : DB)
deriving Repr, DecidableEq

/-- Successful move: set `parentFolder` and `updatedAt` on the node, save. -/
def setParent (db : DB) (fid : Nat) (p : Option Nat) (now : Nat) : DB :=
  updateNode db fid fun f => { f with parentFolder := p, updatedAt := now }

/-- the move route (`POST /:fileId/move`) with an id-based target (the
`targetFolderName` resolution branch is not taken).  The empty-string and root-marker
normalisation is reflected by `target : Option Nat`.  The outer `Option` is
the fuel of `checkIfSubfolder`: `none` means that call did not return. -/
def move (fuel : Nat) (db : DB) (uid fid : Nat) (target : Option Nat) (now : Nat) :
    Option MoveResult :=
  match findOwned db uid fid with
  | none => some (.err .notFound)
  | some file =>
    match target with
    | none => some (.ok (setParent db fid none now))
    | some t =>
      match findTargetFolder db uid t with
      | none => some (.err .targetNotFound)
      | some _ =>
        if file.isFolder && fid == t then some (.err .selfMove)
        else if file.isFolder then
          match checkIfSubfolder fuel db (some t) fid with
          | none => none
          | some true => some (.err .cycle)
          | some false => some (.ok (setParent db fid (some t) now))
        else some (.ok (setParent db fid (some t) now))

/-- Milliseconds in 30 days: `30 * 24 * 60 * 60 * 1000`. -/
def thirtyDaysMs : Nat := 30 * 24 * 60 * 60 * 1000

/-- the trash route (`POST /:fileId/trash`): on an owned node, set `inTrash`,
`deletedAt = now`, `permanentDeleteAt = now + 30d`; `none` is the 404 case. -/
def trashNode (db : DB) (uid fid now : Nat) : Option DB :=
  match findOwned db uid fid with
  | none => none
  | some _ => some (updateNode db fid fun f =>
      { f with inTrash := true, deletedAt := some now,
               permanentDeleteAt := some (now + thirtyDaysMs) })

/-- the restore route (`POST /:fileId/restore`): requires
`File.findOne({ _id, userId, inTrash: true })`; clears the trash fields. -/
def restoreNode (db : DB) (uid fid : Nat) : Option DB :=
  match db.find? (fun f => f.id == fid && f.userId == uid && f.inTrash) with
  | none => none
  | some _ => some (updateNode db fid fun f =>
      { f with inTrash := false, deletedAt := none, permanentDeleteAt := none })

/-- Modelled from the spec: `StorageStats.updateUserStats` recomputation
(`backend/models/StorageStats.js` is not under `src/`).  §4.4: "scans all
non-trashed nodes owned by the account, sums `size` over files".  This is the
`usedStorage` component of the Quota Ledger. -/
def recomputeUsedStorage (db : DB) (uid : Nat) : Nat :=
  ((db.filter fun f => f.userId == uid && !f.inTrash && !f.isFolder).map
    (fun f => f.size)).sum

/-- Does the character list `hay` start with `needle`? -/
def listStartsWith : List Char → List Char → Bool
  | _, [] => true
  | [], _ :: _ => false
  | a :: as, b :: bs => a == b && listStartsWith as bs

/-- Does the character list `hay` contain `needle` as a contiguous run? -/
def listHasSeq (hay needle : List Char) : Bool :=
  match hay with
  | [] => needle.isEmpty
  | _ :: rest => listStartsWith hay needle || listHasSeq rest needle

/-- JavaScript `hay.includes(needle)` on strings. -/
def strIncludes (hay needle : String) : Bool :=
  listHasSeq hay.data needle.data

/-- JavaScript `hay.startsWith(needle)` on strings. -/
def strStartsWith (hay needle : String) : Bool :=
  listStartsWith hay.data needle.data

/-- ASCII lower-casing of one character (`toLowerCase` on the names this
system handles). -/
def jsToLower (c : Char) : Char :=
  if 'A' ≤ c && c ≤ 'Z' then Char.ofNat (c.toNat + 32) else c

/-- `hay.toLowerCase().includes(needle.toLowerCase())`. -/
def lowerIncludes (hay needle : String) : Bool :=
  listHasSeq (hay.data.map jsToLower) (needle.data.map jsToLower)

/-- Split a character list on a separator; like JavaScript `split`, the
result never is empty and keeps empty groups. -/
def splitOnChar (sep : Char) : List Char → List (List Char)
  | [] => [[]]
  | c :: cs =>
    let r := splitOnChar sep cs
    if c == sep then [] :: r
    else
      match r with
      | [] => [[c]]
      | g :: gs => (c :: g) :: gs

/-- Re-join groups with a dot between them. -/
def joinDot : List (List Char) → List Char
  | [] => []
  | [g] => g
  | g :: gs => g ++ '.' :: joinDot gs

/-- `path.basename(p, path.extname(p))` on character lists: the last path
component with its extension (the text from the last dot, unless that dot
starts the component) removed. -/
def stemChars (cs : List Char) : List Char :=
  let base := (splitOnChar '/' cs).getLastD cs
  let parts := splitOnChar '.' base
  match parts with
  | [] => base
  | [_] => base
  | first :: rest =>
    if first.isEmpty && rest.length == 1 then base
    else joinDot parts.dropLast

/-- `path.basename(p, path.extname(p))` on strings. -/
def stemOf (p : String) : String :=
  ⟨stemChars p.data⟩

/-- `getFileTypeFromMime` from `backend/routes/files.js`. -/
def getFileTypeFromMime (m : String) : String :=
  if strStartsWith m "image/" then "image"
  else if strStartsWith m "video/" then "video"
  else if strStartsWith m "audio/" then "audio"
  else if strIncludes m "pdf" then "pdf"
  else if strIncludes m "zip" || strIncludes m "rar" || strIncludes m "tar"
       || strIncludes m "7z" then "archive"
  else if strIncludes m "text" || strIncludes m "plain" then "text"
  else if strIncludes m "javascript" || strIncludes m "python"
       || strIncludes m "java" || strIncludes m "cpp" || strIncludes m "html"
       || strIncludes m "css" then "code"
  else "document"

/-- A `StorageStats` document: per-account quota record (`usedStorage` only;
the other components play no role in the claims). -/
structure StatsRec where
  userId : Nat
  usedStorage : Nat
deriving Repr, DecidableEq

/-- The mutable state an upload request touches: the `File` collection, the
content store (the set of keys under `uploads/`, as a list), and the
`StorageStats` collection. -/
structure SysState where
  db : DB
  store : List String
  stats : List StatsRec
deriving Repr, DecidableEq

/-- One incoming file as multer presents it to the route handler:
`{ originalname, mimetype, size, path: filePath }`.  `filePath` is the
content-store key multer has already written the bytes under. -/
structure UploadReq where
  originalname : String
  mimetype : String
  size : Nat
  filePath : String
deriving Repr, DecidableEq

/-- The identity of a node as reported in an upload response. -/
structure FileIdent where
  fid : Nat
  name : String
  ftype : String
  size : Nat
  parentFolder : Option Nat
deriving Repr, DecidableEq

/-- Outcome of the single-file upload route. -/
inductive UploadOutcome
  | invalidParent
  | quotaExceeded
  | ok (file : FileIdent) (isNew : Bool)
deriving Repr, DecidableEq

/-- The storage ceiling constant hard-coded in both upload routes. -/
def quotaLimit : Nat := 16106127360

/-- `fs.unlinkSync(k)`: remove key `k` from the content store. -/
def unlink (store : List String) (k : String) : List String :=
  store.filter fun s => s != k

/-- `StorageStats.findOne({ userId: uid })`. -/
def statsFor (stats : List StatsRec) (uid : Nat) : Option StatsRec :=
  stats.find? fun s => s.userId == uid

/-- The parent-folder legality check of the upload routes, as a Bool:
passes when the parent is root (`null`) or resolves via `findParentFolder`. -/
def parentOk (db : DB) (uid : Nat) (p : Option Nat) : Bool :=
  match p with
  | none => true
  | some pid => (findParentFolder db uid pid).isSome

/-- The quota guard of the single-upload route (`POST /upload`):
`storageStats && (storageStats.usedStorage + size) > 16106127360`.
When the account has no `StorageStats` record the guard is falsy and the
check is skipped. -/
def quotaFailsSingle (stats : List StatsRec) (uid size : Nat) : Bool :=
  match statsFor stats uid with
  | none => false
  | some s => decide (s.usedStorage + size > quotaLimit)

/-- The duplicate-detection query of both upload routes:
`File.findOne({ userId, originalName, size, parentFolder, inTrash: false })`. -/
def findDuplicate (db : DB) (uid : Nat) (oname : String) (size : Nat)
    (p : Option Nat) : Option Node :=
  db.find? fun f => f.userId == uid && f.originalName == oname
    && f.size == size && f.parentFolder == p && !f.inTrash

/-- Modelled from the spec: writing back the recomputed Quota Ledger record
(`StorageStats.updateUserStats`; `backend/models/StorageStats.js` is not under
`src/`).  §4.4: the record is recomputed from the non-trashed nodes, not
incremented. -/
def setStat (l : List StatsRec) (uid v : Nat) : List StatsRec :=
  if l.any (fun s => s.userId == uid) then
    l.map fun s => if s.userId == uid then { s with usedStorage := v } else s
  else l ++ [⟨uid, v⟩]

/-- Modelled from the spec: `StorageStats.updateUserStats(uid)` recomputes the
ledger of the account from the current node set and persists it. -/
def updateUserStats (st : SysState) (uid : Nat) : SysState :=
  { st with stats := setStat st.stats uid (recomputeUsedStorage st.db uid) }

/-- The node document built by the upload routes for a fresh file. -/
def newFileNode (uid newId now : Nat) (req : UploadReq)
    (parentFolder : Option Nat) : Node :=
  { id := newId, userId := uid, name := req.originalname,
    originalName := req.originalname, isFolder := false,
    ftype := getFileTypeFromMime req.mimetype, size := req.size,
    path := some req.filePath, parentFolder := parentFolder,
    createdAt := now, updatedAt := now }

/-- The single-upload route (`POST /upload`).  Multer has already persisted the bytes under
`req.filePath` before the handler runs, so the handler starts by adding that
key to the content store; the error paths `fs.unlinkSync` it again.  The
duplicate branch answers with the identity of the existing node and does not
touch the content store. -/
def uploadSingle (st0 : SysState) (uid : Nat) (req : UploadReq)
    (parentFolder : Option Nat) (newId now : Nat) : UploadOutcome × SysState :=
  let st : SysState := { st0 with store := st0.store ++ [req.filePath] }
  if !parentOk st.db uid parentFolder then
    (.invalidParent, { st with store := unlink st.store req.filePath })
  else if quotaFailsSingle st.stats uid req.size then
    (.quotaExceeded, { st with store := unlink st.store req.filePath })
  else
    match findDuplicate st.db uid req.originalname req.size parentFolder with
    | some ex =>
      (.ok ⟨ex.id, ex.name, ex.ftype, ex.size, ex.parentFolder⟩ false,
       updateUserStats st uid)
    | none =>
      let n := newFileNode uid newId now req parentFolder
      let st2 : SysState := { st with db := st.db ++ [n] }
      (.ok ⟨newId, n.name, n.ftype, n.size, n.parentFolder⟩ true,
       updateUserStats st2 uid)

/-- Outcome of the multi-file upload route. -/
inductive MultiOutcome
  | noFiles
  | invalidParent
  | quotaExceeded
  | ok (files : List FileIdent)
deriving Repr, DecidableEq

/-- `fs.unlinkSync` applied to each key of the request. -/
def unlinkAll (store : List String) (ks : List String) : List String :=
  ks.foldl unlink store

/-- One iteration of the per-file loop of the multi-upload route (`POST /upload-multiple`)
(plain multi-file upload, `isFolder` not the string true): duplicate check against the
current collection, then either report the existing node or save a new one. -/
def uploadMultiStep (uid : Nat) (parentFolder : Option Nat) (now : Nat) :
    SysState × List FileIdent → UploadReq × Nat → SysState × List FileIdent
  | (st, acc), (req, newId) =>
    match findDuplicate st.db uid req.originalname req.size parentFolder with
    | some ex => (st, acc ++ [⟨ex.id, ex.name, ex.ftype, ex.size, ex.parentFolder⟩])
    | none =>
      let n := newFileNode uid newId now req parentFolder
      ({ st with db := st.db ++ [n] },
       acc ++ [⟨newId, n.name, n.ftype, n.size, n.parentFolder⟩])

/-- The multi-upload route (`POST /upload-multiple`) for a plain multi-file
upload (`isFolder` not the string true, no folder structure).  Its quota guard differs from
the single route: `currentUsed = storageStats ? storageStats.usedStorage : 0`,
so a missing stats record counts as zero and the check always runs. -/
def uploadMultiple (st0 : SysState) (uid : Nat) (reqs : List UploadReq)
    (parentFolder : Option Nat) (newIds : List Nat) (now : Nat) :
    MultiOutcome × SysState :=
  let keys := reqs.map (fun r => r.filePath)
  let st : SysState := { st0 with store := st0.store ++ keys }
  if reqs.isEmpty then (.noFiles, st)
  else if !parentOk st.db uid parentFolder then
    (.invalidParent, { st with store := unlinkAll st.store keys })
  else
    let currentUsed := match statsFor st.stats uid with
      | none => 0
      | some s => s.usedStorage
    let uploadSize := (reqs.map (fun r => r.size)).sum
    if currentUsed + uploadSize > quotaLimit then
      (.quotaExceeded, { st with store := unlinkAll st.store keys })
    else
      let p := (reqs.zip newIds).foldl (uploadMultiStep uid parentFolder now) (st, [])
      (.ok p.2, updateUserStats p.1 uid)

/-- A directory entry as seen by the download fallback: its name within the
directory, its full candidate path, its byte size, and whether `statSync`
reports a regular file. -/
structure DirEntry where
  ename : String
  epath : String
  esize : Nat
  isFile : Bool
deriving Repr, DecidableEq

/-- `sizeMatches = file.size && stat.size === (file.size || 0)`. -/
def entrySizeMatches (fsize : Nat) (e : DirEntry) : Bool :=
  fsize != 0 && e.esize == fsize

/-- `nameMatches = baseName && candidateBase.toLowerCase().includes(baseName.toLowerCase())`,
with `candidateBase = path.basename(e, path.extname(e))`. -/
def entryNameMatches (bn : Option String) (e : DirEntry) : Bool :=
  match bn with
  | none => false
  | some b => lowerIncludes (stemOf e.ename) b

/-- `baseName = file.originalName ? path.basename(...) : null`
(an empty `originalName` is falsy in JavaScript). -/
def baseNameOfFile (f : Node) : Option String :=
  if f.originalName == "" then none else some (stemOf f.originalName)

/-- The per-directory candidate loop of the download fallback, carrying the
`found` variable: a size-and-name match returns at once; with a falsy
`file.size` a name match returns at once; otherwise the first name-only
match is remembered in `found` and the scan continues. -/
def searchDirGo (fsize : Nat) (bn : Option String) :
    List DirEntry → Option DirEntry → Option DirEntry
  | [], found => found
  | e :: rest, found =>
    if !e.isFile then searchDirGo fsize bn rest found
    else if entrySizeMatches fsize e && entryNameMatches bn e then some e
    else if fsize == 0 && entryNameMatches bn e then some e
    else if found.isNone && entryNameMatches bn e then
      searchDirGo fsize bn rest (some e)
    else searchDirGo fsize bn rest found

/-- The global fallback search: scan the directory of each account in listing
order with the same per-directory rule, stopping at the first directory that
yields a candidate (`if (found) break`). -/
def globalSearch (fsize : Nat) (bn : Option String) :
    List (List DirEntry) → Option DirEntry
  | [] => none
  | d :: ds =>
    match searchDirGo fsize bn d none with
    | some e => some e
    | none => globalSearch fsize bn ds

/-- The whole path-reconciliation fallback of the download route: the own directory of the owner first; only when that yields nothing, the global search over
the directories of all accounts. -/
def resolveFallback (fsize : Nat) (bn : Option String)
    (ownEntries : List DirEntry) (allDirs : List (List DirEntry)) :
    Option DirEntry :=
  match searchDirGo fsize bn ownEntries none with
  | some e => some e
  | none => globalSearch fsize bn allDirs

/-- Outcome of the authenticated download route. -/
inductive DownloadResult
  | notFound
  | folderErr
  | contentMissing
  | ok (p : String)
deriving Repr, DecidableEq

/-- The access query of the download route:
`File.findOne` on `_id` with an or-clause on `userId` and `sharedWith.user`. -/
def findAccessible (db : DB) (uid fid : Nat) : Option Node :=
  db.find? fun f => f.id == fid && (f.userId == uid || f.sharedWith.contains uid)

/-- `file.path && fs.existsSync(file.path)`. -/
def pathResolves (fsX : String → Bool) : Option String → Bool
  | none => false
  | some p => fsX p

/-- The download route (`GET /:fileId/download`): resolve the node, reject folders, and
when the recorded path does not resolve run the fallback search; on success
the found path is persisted back to the node (self-healing). -/
def download (db : DB) (uid fid : Nat) (fsX : String → Bool)
    (ownEntries : List DirEntry) (allDirs : List (List DirEntry)) :
    DownloadResult × DB :=
  match findAccessible db uid fid with
  | none => (.notFound, db)
  | some f =>
    if f.isFolder then (.folderErr, db)
    else if pathResolves fsX f.path then (.ok (f.path.getD ""), db)
    else
      match resolveFallback f.size (baseNameOfFile f) ownEntries allDirs with
      | some e => (.ok e.epath, updateNode db fid fun g => { g with path := some e.epath })
      | none => (.contentMissing, db)

/-- Outcome of the public-link download route. -/
inductive PublicResult
  | notFound
  | folderErr
  | missingOnServer
  | ok (p : String)
deriving Repr, DecidableEq

/-- `File.findOne({ publicUrl: token, inTrash: false })`. -/
def findPublic (db : DB) (token : String) : Option Node :=
  db.find? fun f => f.publicUrl == some token && !f.inTrash

/-- The public download route (`GET /public/:token`): token lookup excludes trashed nodes,
folders are rejected, then the path must exist on disk before bytes are
streamed. -/
def publicDownload (db : DB) (token : String) (fsX : String → Bool) :
    PublicResult :=
  match findPublic db token with
  | none => .notFound
  | some f =>
    if f.isFolder then .folderErr
    else if !(pathResolves fsX f.path) then .missingOnServer
    else .ok (f.path.getD "")

/-! ### Concrete collections and records used by the theorems below -/

/-- A one-node collection whose folder is its own parent: the acyclicity
invariant is violated. -/
def cyclicDB : DB :=
  [{ id := 1, userId := 1, isFolder := true, parentFolder := some 1 }]

/-- The loop of `checkIfSubfolder` has not returned after `n` iterations, for
any `n`: in the unbounded JavaScript loop this is an infinite loop. -/
def loopsForever (db : DB) (s : Option Nat) (t : Nat) : Prop :=
  ∀ n, checkIfSubfolder n db s t = none

/-- A two-folder chain with ids decreasing along `parentFolder` links. -/
def rankedDB : DB :=
  [{ id := 2, userId := 1, isFolder := true, parentFolder := some 1 },
   { id := 1, userId := 1, isFolder := true }]

/-- Three folders: A (id 1) at root, B (id 2) under A, C (id 3) at root. -/
def c1DB : DB :=
  [{ id := 1, userId := 1, isFolder := true },
   { id := 2, userId := 1, isFolder := true, parentFolder := some 1 },
   { id := 3, userId := 1, isFolder := true }]

/-- The node record as the trash route rewrites it. -/
def trashedCopy (f : Node) (now : Nat) : Node :=
  { f with inTrash := true, deletedAt := some now,
           permanentDeleteAt := some (now + thirtyDaysMs) }

/-- The pre-existing node for the duplicate-upload scenarios. -/
def dupNode : Node :=
  { id := 3, userId := 1, name := "a.txt", originalName := "a.txt", size := 4,
    path := some "k0" }

/-- A trashed node still carrying a public token. -/
def pubTrashedNode : Node :=
  { id := 1, userId := 1, publicUrl := some "tok", inTrash := true, path := some "k" }

/-- A public folder node. -/
def pubFolderNode : Node :=
  { id := 2, userId := 1, publicUrl := some "tok", isFolder := true }

/-- The break condition of the per-directory candidate loop: a size-and-name
match, or (for a falsy `file.size`) a bare name match, returns at once. -/
def breakMatch (fsize : Nat) (bn : Option String) (e : DirEntry) : Bool :=
  e.isFile && (entrySizeMatches fsize e && entryNameMatches bn e
    || ((fsize == 0) && entryNameMatches bn e))

/-- A regular-file candidate matching by name only. -/
def nameOnly (bn : Option String) (e : DirEntry) : Bool :=
  e.isFile && entryNameMatches bn e

/-- A file whose recorded path is stale, and one matching candidate in the
directory of the owner. -/
def staleNode : Node :=
  { id := 1, userId := 1, originalName := "a.txt", size := 4, path := some "gone" }

/-! ## General lemmas about the embedded queries -/

/-- `updateNode` with an id-preserving patch commutes with `findById`. -/
theorem findById_updateNode (db : DB) (fid : Nat) (g : Node → Node)
    (hg : ∀ x, (g x).id = x.id) (c : Nat) :
    findById (updateNode db fid g) c
      = (findById db c).map fun x => if x.id == fid then g x else x := by
  unfold findById updateNode
  rw [List.find?_map]
  have hp : ((fun f : Node => f.id == c) ∘ fun f : Node => if f.id == fid then g f else f)
      = fun f : Node => f.id == c := by
    funext x
    by_cases h : (x.id == fid) = true
    · simp [Function.comp, h, hg]
    · simp [Function.comp, h]
  rw [hp]

/-- `checkIfSubfolder` is monotone in the fuel: once the loop has returned,
more fuel does not change the answer. -/
theorem checkIfSubfolder_mono :
    ∀ n k (db : DB) (s : Option Nat) (t : Nat) (r : Bool),
      checkIfSubfolder n db s t = some r → checkIfSubfolder (n + k) db s t = some r := by
  intro n
  induction n with
  | zero =>
    intro k db s t r h
    cases s with
    | none => simpa [checkIfSubfolder] using h
    | some c => simp [checkIfSubfolder] at h
  | succ m ih =>
    intro k db s t r h
    cases s with
    | none => simpa [checkIfSubfolder] using h
    | some c =>
      rw [show m + 1 + k = (m + k) + 1 by omega]
      cases hfb : findById db c with
      | none =>
        rw [checkIfSubfolder, hfb] at h
        rw [checkIfSubfolder, hfb]
        exact h
      | some folder =>
        rw [checkIfSubfolder, hfb] at h
        rw [checkIfSubfolder, hfb]
        by_cases hid : (folder.id == t) = true
        · simpa [hid] using h
        · simp only [hid, Bool.false_eq_true, if_false] at h ⊢
          exact ih k db folder.parentFolder t r h

/-- A walk that returns `false` never visits the node `fid`, so patching that
node (id-preservingly) leaves the walk unchanged. -/
theorem checkIfSubfolder_updateNode (g : Node → Node) (hg : ∀ x, (g x).id = x.id) :
    ∀ n (db : DB) (fid : Nat) (s : Option Nat),
      checkIfSubfolder n db s fid = some false →
      checkIfSubfolder n (updateNode db fid g) s fid = some false := by
  intro n
  induction n with
  | zero =>
    intro db fid s h
    cases s with
    | none => simp [checkIfSubfolder]
    | some c => simp [checkIfSubfolder] at h
  | succ m ih =>
    intro db fid s h
    cases s with
    | none => simp [checkIfSubfolder]
    | some c =>
      cases hfb : findById db c with
      | none =>
        rw [checkIfSubfolder, findById_updateNode db fid g hg c, hfb]
        rfl
      | some folder =>
        rw [checkIfSubfolder, hfb] at h
        by_cases hid : (folder.id == fid) = true
        · simp [hid] at h
        · rw [checkIfSubfolder, findById_updateNode db fid g hg c, hfb]
          simp only [hid, Bool.false_eq_true, if_false] at h
          simp only [Option.map_some', hid, Bool.false_eq_true, if_false]
          exact ih db fid folder.parentFolder h

/-! ## C8: termination of `checkIfSubfolder` -/

/-- C8 counterexample: on a store where a folder is its own parent,
`checkIfSubfolder(1, 2)` never returns, for any number of loop iterations.
The source has no iteration bound and no `IntegrityError` branch, so the
claim that iteration is bounded and fails safely with an integrity error
is false of the code. -/
theorem C8_counterexample : loopsForever cyclicDB (some 1) 2 := by
  intro n
  induction n with
  | zero => rfl
  | succ m ih =>
    rw [checkIfSubfolder]
    have hfb : findById cyclicDB 1
        = some { id := 1, userId := 1, isFolder := true, parentFolder := some 1 } := rfl
    rw [hfb]
    simpa using ih

/-- C8 amended: `checkIfSubfolder` does terminate on every store whose
`parentFolder` links admit a strictly decreasing rank (in particular on every
acyclic finite tree): rank-of-start plus one loop iterations suffice to
return an answer.  No iteration bound or `IntegrityError` exists in the code;
on a store violating acyclicity the loop runs forever (`C8_counterexample`). -/
theorem C8_theorem (db : DB) (m : Nat → Nat)
    (hm : ∀ f ∈ db, ∀ p, f.parentFolder = some p → m p < m f.id) :
    ∀ cur t, ∃ r, checkIfSubfolder (m cur + 1) db (some cur) t = some r := by
  have key : ∀ N cur t, m cur < N →
      ∃ r, checkIfSubfolder (m cur + 1) db (some cur) t = some r := by
    intro N
    induction N with
    | zero => intro cur t h; omega
    | succ M ih =>
      intro cur t h
      cases hfb : findById db cur with
      | none => exact ⟨false, by rw [checkIfSubfolder, hfb]⟩
      | some folder =>
        by_cases hid : (folder.id == t) = true
        · exact ⟨true, by rw [checkIfSubfolder, hfb]; simp [hid]⟩
        · cases hpf : folder.parentFolder with
          | none =>
            refine ⟨false, ?_⟩
            rw [checkIfSubfolder, hfb]
            simp only [hid, Bool.false_eq_true, if_false, hpf]
            cases m cur <;> rfl
          | some p =>
            have hmem : folder ∈ db := List.mem_of_find?_eq_some hfb
            have hfid : folder.id = cur := by
              have := List.find?_some hfb
              simpa using this
            have hlt : m p < m cur := by
              have := hm folder hmem p hpf
              rwa [hfid] at this
            obtain ⟨r, hr⟩ := ih p t (by omega)
            refine ⟨r, ?_⟩
            rw [checkIfSubfolder, hfb]
            simp only [hid, Bool.false_eq_true, if_false, hpf]
            have := checkIfSubfolder_mono (m p + 1) (m cur - (m p + 1)) db (some p) t r hr
            rwa [show m p + 1 + (m cur - (m p + 1)) = m cur by omega] at this
  intro cur t
  exact key (m cur + 1) cur t (by omega)

theorem C8_witness :
    ∃ r, checkIfSubfolder ((fun i => i) 2 + 1) rankedDB (some 2) 1 = some r := by
  refine C8_theorem rankedDB (fun i => i) ?_ 2 1
  intro f hf p hp
  simp only [rankedDB, List.mem_cons, List.not_mem_nil, or_false] at hf
  rcases hf with rfl | rfl
  · simp only at hp
    have : p = 1 := by injection hp with h; omega
    subst this
    decide
  · simp at hp

/-- Unpack the properties guaranteed by a successful `findOwned` query. -/
theorem findOwned_props (db : DB) (uid fid : Nat) (f : Node)
    (h : findOwned db uid fid = some f) : f ∈ db ∧ f.id = fid ∧ f.userId = uid := by
  refine ⟨List.mem_of_find?_eq_some h, ?_⟩
  have := List.find?_some h
  simp only [Bool.and_eq_true, beq_iff_eq] at this
  exact this

/-- Unpack the properties guaranteed by a successful `findTargetFolder`
query: the target exists, is owned, and is a folder — nothing about trash. -/
theorem findTargetFolder_props (db : DB) (uid t : Nat) (g : Node)
    (h : findTargetFolder db uid t = some g) :
    g ∈ db ∧ g.id = t ∧ g.userId = uid ∧ g.isFolder = true := by
  refine ⟨List.mem_of_find?_eq_some h, ?_⟩
  have := List.find?_some h
  simp only [Bool.and_eq_true, beq_iff_eq] at this
  exact ⟨this.1.1, this.1.2, this.2⟩

/-- When the node records in the collection carry unique ids, the
target-folder lookup at the own id of the node resolves exactly when the node is
a folder. -/
theorem findTargetFolder_self (db : DB) (uid fid : Nat) (f : Node)
    (hf : findOwned db uid fid = some f)
    (huniq : ∀ g ∈ db, g.id = fid → g = f) :
    (f.isFolder = true → findTargetFolder db uid fid = some f)
    ∧ (f.isFolder = false → findTargetFolder db uid fid = none) := by
  obtain ⟨hmem, hid, huid⟩ := findOwned_props db uid fid f hf
  constructor
  · intro hfold
    cases hq : findTargetFolder db uid fid with
    | none =>
      exfalso
      have hnone := List.find?_eq_none.mp hq f hmem
      simp [hid, huid, hfold] at hnone
    | some g =>
      obtain ⟨hgmem, hgid, _, _⟩ := findTargetFolder_props db uid fid g hq
      rw [huniq g hgmem hgid]
  · intro hnfold
    cases hq : findTargetFolder db uid fid with
    | none => rfl
    | some g =>
      exfalso
      obtain ⟨hgmem, hgid, _, hgfold⟩ := findTargetFolder_props db uid fid g hq
      rw [huniq g hgmem hgid] at hgfold
      rw [hnfold] at hgfold
      exact Bool.false_ne_true hgfold

/-! ## C6: moving a node onto itself -/

/-- C6 counterexample: for a *file*, `move(f, f)` does not fail with the
self-move error — the self-move guard is `file.isFolder && fileId ===
targetFolderId`, and the target lookup (which requires `isFolder: true`)
fails first, so the route answers "Target folder not found". -/
theorem C6_counterexample :
    move 10 [{ id := 1, userId := 1 }] 1 1 (some 1) 0 = some (.err .targetNotFound)
    ∧ MoveResult.err .targetNotFound ≠ MoveResult.err .selfMove := by
  constructor
  · decide
  · decide

/-- C6 amended: a move whose target id equals the own id of the node fails and
leaves the collection untouched (errors return before any save), but the
error depends on the kind of the node: a folder gets the self-move error, while a
file gets "Target folder not found", because the target lookup requires
`isFolder: true` and the node itself is not a folder. -/
theorem C6_theorem (fuel : Nat) (db : DB) (uid fid now : Nat) (f : Node)
    (hf : findOwned db uid fid = some f)
    (huniq : ∀ g ∈ db, g.id = fid → g = f) :
    (f.isFolder = true → move fuel db uid fid (some fid) now = some (.err .selfMove))
    ∧ (f.isFolder = false → move fuel db uid fid (some fid) now = some (.err .targetNotFound)) := by
  obtain ⟨hself, hnotfolder⟩ := findTargetFolder_self db uid fid f hf huniq
  constructor
  · intro hfold
    rw [move, hf]
    simp [hself hfold, hfold]
  · intro hnfold
    rw [move, hf]
    simp [hnotfolder hnfold]

theorem C6_witness :
    move 10 [{ id := 1, userId := 1 }] 1 1 (some 1) 0 = some (.err .targetNotFound) := by
  refine (C6_theorem 10 [{ id := 1, userId := 1 }] 1 1 0 { id := 1, userId := 1 }
    (by decide) ?_).2 rfl
  intro g hg _
  simpa using hg

/-! ## C7: validity of the move target -/

/-- C7 counterexample: moving a file into a *trashed* folder succeeds — the
id-based target lookup of the move route has no `inTrash: false` filter, so
the claim that moving a node into a trashed folder is rejected is false. -/
theorem C7_counterexample :
    move 10 [{ id := 1, userId := 1 },
      { id := 2, userId := 1, isFolder := true, inTrash := true }] 1 1 (some 2) 7
    = some (.ok [{ id := 1, userId := 1, parentFolder := some 2, updatedAt := 7 },
                 { id := 2, userId := 1, isFolder := true, inTrash := true }]) := by
  decide

/-- C7 amended: a move with a non-null target id succeeds only if the target
resolves to an existing folder owned by the same account; the trash
state of the target is not checked, so a trashed folder is accepted (for a file node the
move then succeeds unconditionally). -/
theorem C7_theorem (fuel : Nat) (db : DB) (uid fid t now : Nat) :
    (∀ r, move fuel db uid fid (some t) now = some (.ok r) →
      ∃ g, findTargetFolder db uid t = some g
        ∧ g.id = t ∧ g.userId = uid ∧ g.isFolder = true)
    ∧ (∀ f g, findOwned db uid fid = some f → f.isFolder = false →
        findTargetFolder db uid t = some g →
        move fuel db uid fid (some t) now
          = some (.ok (setParent db fid (some t) now))) := by
  constructor
  · intro r hr
    cases hfo : findOwned db uid fid with
    | none => rw [move, hfo] at hr; simp at hr
    | some f =>
      cases htf : findTargetFolder db uid t with
      | none => rw [move, hfo] at hr; simp [htf] at hr
      | some g =>
        obtain ⟨_, hgid, hguid, hgfold⟩ := findTargetFolder_props db uid t g htf
        exact ⟨g, rfl, hgid, hguid, hgfold⟩
  · intro f g hfo hnf htf
    rw [move, hfo]
    simp [htf, hnf]

theorem C7_witness :
    move 10 [{ id := 1, userId := 1 },
      { id := 2, userId := 1, isFolder := true, inTrash := true }] 1 1 (some 2) 7
    = some (.ok (setParent [{ id := 1, userId := 1 },
        { id := 2, userId := 1, isFolder := true, inTrash := true }] 1 (some 2) 7)) :=
  (C7_theorem 10 _ 1 1 2 7).2 { id := 1, userId := 1 }
    { id := 2, userId := 1, isFolder := true, inTrash := true } rfl rfl rfl

/-! ## C1: cycle prevention on folder moves -/

/-- C1 counterexample: when the target B *is* the folder A itself, the move
fails with the self-move error ("Cannot move folder into itself"), not the
cycle error — the self-move guard runs before the descendant walk, so the
claim that this case fails with a cycle error is false. -/
theorem C1_counterexample :
    move 10 [{ id := 1, userId := 1, isFolder := true }] 1 1 (some 1) 0
      = some (.err .selfMove)
    ∧ MoveResult.err .selfMove ≠ MoveResult.err .cycle := by
  constructor
  · decide
  · decide

/-- C1 amended: for a folder A owned by the account (with unique ids):
moving A onto itself fails with the self-move error; moving A into a strict
descendant B (the upward walk from B reaches A) fails with the cycle error;
moving A into a valid non-descendant target B succeeds, and afterwards
`checkIfSubfolder(B, A)` is still false — the walk from B never visited A, so
re-pointing the `parentFolder` of A cannot put A above B.  Errors return before
any save, so the `parentFolder` of A is unchanged in the failure cases.  A move to
root (`null` target) always succeeds. -/
theorem C1_theorem (fuel : Nat) (db : DB) (uid fid now : Nat) (f : Node)
    (hf : findOwned db uid fid = some f)
    (hfold : f.isFolder = true)
    (huniq : ∀ g ∈ db, g.id = fid → g = f) :
    (move fuel db uid fid (some fid) now = some (.err .selfMove))
    ∧ (∀ t g, t ≠ fid → findTargetFolder db uid t = some g →
        checkIfSubfolder fuel db (some t) fid = some true →
        move fuel db uid fid (some t) now = some (.err .cycle))
    ∧ (∀ t g, t ≠ fid → findTargetFolder db uid t = some g →
        checkIfSubfolder fuel db (some t) fid = some false →
        move fuel db uid fid (some t) now
          = some (.ok (setParent db fid (some t) now))
        ∧ checkIfSubfolder fuel (setParent db fid (some t) now) (some t) fid
          = some false)
    ∧ (move fuel db uid fid none now = some (.ok (setParent db fid none now))) := by
  obtain ⟨hself, _⟩ := findTargetFolder_self db uid fid f hf huniq
  refine ⟨?_, ?_, ?_, ?_⟩
  · rw [move, hf]
    simp [hself hfold, hfold]
  · intro t g hteq htf hcs
    have hne : (fid == t) = false := beq_eq_false_iff_ne.mpr (Ne.symm hteq)
    rw [move, hf]
    simp [htf, hfold, hne, hcs]
  · intro t g hteq htf hcs
    have hne : (fid == t) = false := beq_eq_false_iff_ne.mpr (Ne.symm hteq)
    constructor
    · rw [move, hf]
      simp [htf, hfold, hne, hcs]
    · exact checkIfSubfolder_updateNode
        (fun x => { x with parentFolder := some t, updatedAt := now })
        (fun _ => rfl) fuel db fid (some t) hcs
  · rw [move, hf]

theorem C1_witness :
    move 5 c1DB 1 1 (some 1) 0 = some (.err .selfMove)
    ∧ move 5 c1DB 1 1 (some 2) 0 = some (.err .cycle)
    ∧ (move 5 c1DB 1 1 (some 3) 0 = some (.ok (setParent c1DB 1 (some 3) 0))
       ∧ checkIfSubfolder 5 (setParent c1DB 1 (some 3) 0) (some 3) 1 = some false) := by
  have huniq : ∀ g ∈ c1DB, g.id = 1 → g = { id := 1, userId := 1, isFolder := true } := by
    intro g hg hgid
    simp only [c1DB, List.mem_cons, List.not_mem_nil, or_false] at hg
    rcases hg with rfl | rfl | rfl
    · rfl
    · simp at hgid
    · simp at hgid
  have h := C1_theorem 5 c1DB 1 1 0 { id := 1, userId := 1, isFolder := true }
    (by decide) rfl huniq
  refine ⟨h.1, ?_, ?_⟩
  · exact h.2.1 2 { id := 2, userId := 1, isFolder := true, parentFolder := some 1 }
      (by decide) (by decide) (by decide)
  · exact h.2.2.1 3 { id := 3, userId := 1, isFolder := true }
      (by decide) (by decide) (by decide)

/-! ## C4: trash then restore -/

/-- `updateNode` with an id- and owner-preserving patch commutes with
`findOwned`. -/
theorem findOwned_updateNode (db : DB) (uid fid : Nat) (gp : Node → Node)
    (hgid : ∀ x, (gp x).id = x.id) (hguid : ∀ x, (gp x).userId = x.userId)
    (f : Node) (hf : findOwned db uid fid = some f) :
    findOwned (updateNode db fid gp) uid fid = some (gp f) := by
  obtain ⟨_, hfid, _⟩ := findOwned_props db uid fid f hf
  unfold findOwned updateNode
  rw [List.find?_map]
  have hp : ((fun x : Node => x.id == fid && x.userId == uid)
        ∘ fun x : Node => if x.id == fid then gp x else x)
      = fun x : Node => x.id == fid && x.userId == uid := by
    funext x
    by_cases h : (x.id == fid) = true
    · simp [Function.comp, h, hgid, hguid]
    · simp [Function.comp, h]
  rw [hp]
  unfold findOwned at hf
  rw [hf]
  simp [hfid]

/-- Two successive patches of the same node fuse into one, when the first
preserves the id. -/
theorem updateNode_updateNode (db : DB) (fid : Nat) (g1 g2 : Node → Node)
    (hg1 : ∀ x, (g1 x).id = x.id) :
    updateNode (updateNode db fid g1) fid g2
      = updateNode db fid (fun x => g2 (g1 x)) := by
  unfold updateNode
  rw [List.map_map]
  apply List.map_congr_left
  intro x _
  by_cases h : (x.id == fid) = true
  · simp [Function.comp, h, hgid_eq (hg1 x) h]
  · simp [Function.comp, h]
where
  hgid_eq {a b : Nat} (h1 : a = b) (h2 : (b == fid) = true) : (a == fid) = true := by
    rw [h1]; exact h2

/-- Patching an id that occurs nowhere in the collection is the identity. -/
theorem updateNode_of_filter_nil (fid : Nat) (gp : Node → Node) (db : DB)
    (h : db.filter (fun g => g.id == fid) = []) : updateNode db fid gp = db := by
  unfold updateNode
  have hall : ∀ x ∈ db, (if x.id == fid then gp x else x) = x := by
    intro x hx
    have hnx : ¬(x.id == fid) = true := by
      intro hxx
      have := List.filter_eq_nil_iff.mp h x hx
      exact this hxx
    simp [hnx]
  calc db.map (fun x => if x.id == fid then gp x else x)
      = db.map id := List.map_congr_left hall
    _ = db := List.map_id db

/-- The quota recompute as a sum of per-node weights. -/
theorem recompute_eq_sum_map (db : DB) (uid : Nat) :
    recomputeUsedStorage db uid
      = (db.map fun x =>
          if x.userId == uid && !x.inTrash && !x.isFolder then x.size else 0).sum := by
  induction db with
  | nil => rfl
  | cons x rest ih =>
    by_cases h : (x.userId == uid && !x.inTrash && !x.isFolder) = true
    · simp only [recomputeUsedStorage, List.filter_cons, h, if_true, List.map_cons,
        List.sum_cons]
      rw [recomputeUsedStorage] at ih
      rw [ih]
    · simp only [recomputeUsedStorage, List.filter_cons, h, if_false, List.map_cons,
        List.sum_cons, Bool.false_eq_true]
      rw [recomputeUsedStorage] at ih
      rw [ih]
      omega

/-- Trashing the unique node with id `fid` removes exactly its size from the
recomputed quota: the scan skips trashed nodes. -/
theorem recompute_after_trash (uid fid : Nat) (f : Node) (gp : Node → Node)
    (_hgu : ∀ x, (gp x).userId = x.userId)
    (hgt : ∀ x, (gp x).inTrash = true)
    (hfu : f.userId = uid) (hnt : f.inTrash = false) (hnf : f.isFolder = false) :
    ∀ db : DB, db.filter (fun g => g.id == fid) = [f] →
      recomputeUsedStorage (updateNode db fid gp) uid + f.size
        = recomputeUsedStorage db uid := by
  intro db
  induction db with
  | nil => intro h; simp at h
  | cons x rest ih =>
    intro hfil
    rw [List.filter_cons] at hfil
    by_cases hx : (x.id == fid) = true
    · rw [if_pos hx] at hfil
      have hxf : x = f := (List.cons_eq_cons.mp hfil).1
      have hrest : rest.filter (fun g => g.id == fid) = [] :=
        (List.cons_eq_cons.mp hfil).2
      subst hxf
      have hmap : updateNode (x :: rest) fid gp = gp x :: rest := by
        unfold updateNode
        rw [List.map_cons, if_pos hx]
        have := updateNode_of_filter_nil fid gp rest hrest
        unfold updateNode at this
        rw [this]
      rw [hmap]
      rw [recompute_eq_sum_map, recompute_eq_sum_map]
      simp only [List.map_cons, List.sum_cons]
      have hskip : (if (gp x).userId == uid && !(gp x).inTrash && !(gp x).isFolder
          then (gp x).size else 0) = 0 := by
        simp [hgt x]
      have htake : (if x.userId == uid && !x.inTrash && !x.isFolder
          then x.size else 0) = x.size := by
        simp [hfu, hnt, hnf]
      rw [hskip, htake]
      omega
    · rw [if_neg hx] at hfil
      have hmap : updateNode (x :: rest) fid gp = x :: updateNode rest fid gp := by
        unfold updateNode
        rw [List.map_cons, if_neg hx]
      rw [hmap]
      rw [recompute_eq_sum_map, recompute_eq_sum_map, List.map_cons, List.sum_cons,
        List.map_cons, List.sum_cons]
      have := ih hfil
      rw [recompute_eq_sum_map, recompute_eq_sum_map] at this
      omega

/-- `find?` only depends on the values of the predicate on the members of the list. -/
theorem find?_congr_mem {α : Type} (p q : α → Bool) :
    ∀ l : List α, (∀ x ∈ l, p x = q x) → l.find? p = l.find? q := by
  intro l
  induction l with
  | nil => intro _; rfl
  | cons a as ih =>
    intro h
    have ha : p a = q a := h a (by simp)
    cases hq : q a with
    | true =>
      rw [List.find?_cons_of_pos as (by rw [ha, hq]), List.find?_cons_of_pos as hq]
    | false =>
      rw [List.find?_cons_of_neg as (by rw [ha, hq]; exact Bool.false_ne_true),
        List.find?_cons_of_neg as (by rw [hq]; exact Bool.false_ne_true)]
      exact ih fun x hx => h x (by simp [hx])

/-- C4: for a non-trashed owned node (ids unique, trash fields clear, as the
schema keeps them), `trash` sets `inTrash=true`, `deletedAt=now`,
`permanentDeleteAt=now+30d`; `restore` afterwards returns the collection to
exactly its original state — the identity on the trash-state fields (so
`inTrash=false`, `deletedAt=null`, `permanentDeleteAt=null` again) — and
while trashed the size of the node is absent from the recomputed quota, so after
the restore the quota recompute includes it again. -/
theorem C4_theorem (db : DB) (uid fid now : Nat) (f : Node)
    (hf : findOwned db uid fid = some f)
    (hone : db.filter (fun g => g.id == fid) = [f])
    (hnt : f.inTrash = false) (hda : f.deletedAt = none)
    (hpda : f.permanentDeleteAt = none) :
    ∃ db1, trashNode db uid fid now = some db1
      ∧ findOwned db1 uid fid = some (trashedCopy f now)
      ∧ restoreNode db1 uid fid = some db
      ∧ (f.isFolder = false → f.userId = uid →
          recomputeUsedStorage db1 uid + f.size = recomputeUsedStorage db uid) := by
  have huniq : ∀ g ∈ db, g.id = fid → g = f := by
    intro g hg hgid
    have hmemf : g ∈ db.filter (fun g => g.id == fid) := by
      rw [List.mem_filter]
      exact ⟨hg, by simp [hgid]⟩
    rw [hone] at hmemf
    simpa using hmemf
  obtain ⟨hmem, hfid, hfuid⟩ := findOwned_props db uid fid f hf
  set gT : Node → Node := fun x =>
    { x with inTrash := true, deletedAt := some now,
             permanentDeleteAt := some (now + thirtyDaysMs) } with hgT
  set gR : Node → Node := fun x =>
    { x with inTrash := false, deletedAt := none,
             permanentDeleteAt := none } with hgR
  have hfind : (updateNode db fid gT).find?
      (fun x => x.id == fid && x.userId == uid && x.inTrash) = some (gT f) := by
    unfold updateNode
    rw [List.find?_map]
    have hcong : db.find? ((fun x : Node => x.id == fid && x.userId == uid && x.inTrash)
          ∘ fun x : Node => if x.id == fid then gT x else x)
        = db.find? (fun x : Node => x.id == fid && x.userId == uid) := by
      apply find?_congr_mem
      intro x hx
      by_cases h : (x.id == fid) = true
      · have hxf : x = f := huniq x hx (by simpa using h)
        subst hxf
        simp [Function.comp, h, hgT, hfuid]
      · simp [Function.comp, h]
    rw [hcong]
    unfold findOwned at hf
    rw [hf]
    simp [hfid]
  have hupd : updateNode (updateNode db fid gT) fid gR = db := by
    rw [updateNode_updateNode db fid gT gR (fun _ => rfl)]
    unfold updateNode
    have hall : ∀ x ∈ db, (if x.id == fid then gR (gT x) else x) = x := by
      intro x hx
      by_cases h : (x.id == fid) = true
      · have hxf : x = f := huniq x hx (by simpa using h)
        subst hxf
        rw [if_pos h]
        show { x with inTrash := false, deletedAt := none, permanentDeleteAt := none } = x
        cases x
        simp_all
      · rw [if_neg h]
    calc db.map (fun x => if x.id == fid then gR (gT x) else x)
        = db.map id := List.map_congr_left hall
      _ = db := List.map_id db
  have hres : restoreNode (updateNode db fid gT) uid fid = some db := by
    rw [restoreNode, hfind]
    exact congrArg some hupd
  refine ⟨updateNode db fid gT, ?_, ?_, hres, ?_⟩
  · rw [trashNode, hf]
  · exact findOwned_updateNode db uid fid gT (fun _ => rfl) (fun _ => rfl) f hf
  · intro hnf hfu
    exact recompute_after_trash uid fid f gT (fun _ => rfl) (fun _ => rfl)
      hfu hnt hnf db hone

theorem C4_witness :
    ∃ db1, trashNode [{ id := 1, userId := 1, size := 5 }] 1 1 100 = some db1
      ∧ findOwned db1 1 1 = some (trashedCopy { id := 1, userId := 1, size := 5 } 100)
      ∧ restoreNode db1 1 1 = some [{ id := 1, userId := 1, size := 5 }]
      ∧ (({ id := 1, userId := 1, size := 5 } : Node).isFolder = false →
          ({ id := 1, userId := 1, size := 5 } : Node).userId = 1 →
          recomputeUsedStorage db1 1 + ({ id := 1, userId := 1, size := 5 } : Node).size
            = recomputeUsedStorage [{ id := 1, userId := 1, size := 5 }] 1) :=
  C4_theorem [{ id := 1, userId := 1, size := 5 }] 1 1 100
    { id := 1, userId := 1, size := 5 } (by decide) (by decide) rfl rfl rfl

/-! ## C2: duplicate uploads are a no-op reporting the first node -/

/-- Appending records cannot make a previously successful parent lookup fail. -/
theorem parentOk_append (db l : DB) (uid : Nat) (p : Option Nat)
    (h : parentOk db uid p = true) : parentOk (db ++ l) uid p = true := by
  cases p with
  | none => rfl
  | some pid =>
    simp only [parentOk] at h ⊢
    unfold findParentFolder at h ⊢
    rw [List.find?_append]
    cases hq : db.find? (fun f => f.id == pid && f.userId == uid && f.isFolder && !f.inTrash) with
    | none => rw [hq] at h; simp at h
    | some g => simp [hq]

/-- After saving a fresh node, the duplicate query finds exactly it (when no
older record matched). -/
theorem findDuplicate_append_new (db : DB) (uid : Nat) (req : UploadReq)
    (p : Option Nat) (newId now : Nat)
    (hnodup : findDuplicate db uid req.originalname req.size p = none) :
    findDuplicate (db ++ [newFileNode uid newId now req p]) uid
      req.originalname req.size p = some (newFileNode uid newId now req p) := by
  unfold findDuplicate at hnodup ⊢
  rw [List.find?_append, hnodup]
  simp [newFileNode]

/-- C2: two uploads of the same `(originalName, size)` into the same parent by
the same account: the first (no older duplicate present, parent legal, quota
clear) creates a node; the second hits the duplicate check, creates no node,
writes no new node record, and answers success with the identity of the first
node (id, name, type, size, parentFolder). -/
theorem C2_theorem (st : SysState) (uid : Nat) (r1 r2 : UploadReq) (p : Option Nat)
    (newId1 newId2 now1 now2 : Nat)
    (hname : r2.originalname = r1.originalname) (hsize : r2.size = r1.size)
    (hpar : parentOk st.db uid p = true)
    (hq1 : quotaFailsSingle st.stats uid r1.size = false)
    (hnodup : findDuplicate st.db uid r1.originalname r1.size p = none)
    (hq2 : quotaFailsSingle (uploadSingle st uid r1 p newId1 now1).2.stats uid
      r2.size = false) :
    (uploadSingle st uid r1 p newId1 now1).1
      = .ok ⟨newId1, r1.originalname, getFileTypeFromMime r1.mimetype, r1.size, p⟩ true
    ∧ (uploadSingle (uploadSingle st uid r1 p newId1 now1).2 uid r2 p newId2 now2).1
      = .ok ⟨newId1, r1.originalname, getFileTypeFromMime r1.mimetype, r1.size, p⟩ false
    ∧ (uploadSingle (uploadSingle st uid r1 p newId1 now1).2 uid r2 p newId2 now2).2.db
      = (uploadSingle st uid r1 p newId1 now1).2.db := by
  have hfirst : uploadSingle st uid r1 p newId1 now1
      = (.ok ⟨newId1, r1.originalname, getFileTypeFromMime r1.mimetype, r1.size, p⟩ true,
         updateUserStats ⟨st.db ++ [newFileNode uid newId1 now1 r1 p],
           st.store ++ [r1.filePath], st.stats⟩ uid) := by
    rw [uploadSingle]
    simp [hpar, hq1, hnodup, newFileNode]
  have hpar2 : parentOk (st.db ++ [newFileNode uid newId1 now1 r1 p]) uid p = true :=
    parentOk_append st.db _ uid p hpar
  have hdup2 : findDuplicate (st.db ++ [newFileNode uid newId1 now1 r1 p]) uid
      r2.originalname r2.size p = some (newFileNode uid newId1 now1 r1 p) := by
    rw [hname, hsize]
    exact findDuplicate_append_new st.db uid r1 p newId1 now1 hnodup
  have hq2a := hq2
  rw [hfirst] at hq2a
  simp only [updateUserStats] at hq2a
  refine ⟨?_, ?_, ?_⟩
  · rw [hfirst]
  · rw [hfirst]
    rw [uploadSingle]
    simp only [updateUserStats, hpar2, hq2a, Bool.not_true, Bool.false_eq_true,
      if_false, hdup2]
    simp [newFileNode]
  · rw [hfirst]
    rw [uploadSingle]
    simp only [updateUserStats, hpar2, hq2a, Bool.not_true, Bool.false_eq_true,
      if_false, hdup2]

theorem C2_witness :
    (uploadSingle ⟨[], [], []⟩ 1 ⟨"a.txt", "text/plain", 4, "k1"⟩ none 7 10).1
      = .ok ⟨7, "a.txt", getFileTypeFromMime "text/plain", 4, none⟩ true
    ∧ (uploadSingle (uploadSingle ⟨[], [], []⟩ 1 ⟨"a.txt", "text/plain", 4, "k1"⟩ none 7 10).2
        1 ⟨"a.txt", "text/plain", 4, "k2"⟩ none 8 20).1
      = .ok ⟨7, "a.txt", getFileTypeFromMime "text/plain", 4, none⟩ false
    ∧ (uploadSingle (uploadSingle ⟨[], [], []⟩ 1 ⟨"a.txt", "text/plain", 4, "k1"⟩ none 7 10).2
        1 ⟨"a.txt", "text/plain", 4, "k2"⟩ none 8 20).2.db
      = (uploadSingle ⟨[], [], []⟩ 1 ⟨"a.txt", "text/plain", 4, "k1"⟩ none 7 10).2.db :=
  C2_theorem ⟨[], [], []⟩ 1 ⟨"a.txt", "text/plain", 4, "k1"⟩
    ⟨"a.txt", "text/plain", 4, "k2"⟩ none 7 8 10 20 rfl rfl rfl rfl rfl (by decide)

/-! ## C3: quota enforcement on upload -/

/-- Un-linking the freshly appended key only affects older copies. -/
theorem unlink_append_self (l : List String) (k : String) :
    unlink (l ++ [k]) k = unlink l k := by
  unfold unlink
  rw [List.filter_append]
  simp

/-- Un-linking a key that was never stored is a no-op. -/
theorem unlink_of_not_mem (l : List String) (k : String) (h : k ∉ l) :
    unlink l k = l := by
  unfold unlink
  rw [List.filter_eq_self]
  intro a ha
  simp only [bne_iff_ne, ne_eq]
  intro hak
  exact h (hak ▸ ha)

/-- `unlink` never adds keys. -/
theorem not_mem_unlink_of_not_mem (l : List String) (k k2 : String) (h : k ∉ l) :
    k ∉ unlink l k2 := by
  unfold unlink
  intro hmem
  exact h (List.mem_of_mem_filter hmem)

/-- A key is gone after it is unlinked. -/
theorem not_mem_unlink_self (l : List String) (k : String) : k ∉ unlink l k := by
  unfold unlink
  intro hmem
  have := List.of_mem_filter hmem
  simp at this

/-- `unlinkAll` preserves absence. -/
theorem not_mem_unlinkAll_of_not_mem (ks : List String) :
    ∀ (l : List String) (k : String), k ∉ l → k ∉ unlinkAll l ks := by
  induction ks with
  | nil => intro l k h; exact h
  | cons k2 rest ih =>
    intro l k h
    exact ih (unlink l k2) k (not_mem_unlink_of_not_mem l k k2 h)

/-- Every key handed to `unlinkAll` is absent from the result. -/
theorem not_mem_unlinkAll_of_mem (ks : List String) :
    ∀ (l : List String) (k : String), k ∈ ks → k ∉ unlinkAll l ks := by
  induction ks with
  | nil => intro l k h; cases h
  | cons k2 rest ih =>
    intro l k h
    rw [List.mem_cons] at h
    rcases h with rfl | h
    · exact not_mem_unlinkAll_of_not_mem rest (unlink l k) k (not_mem_unlink_self l k)
    · exact ih (unlink l k2) k h

/-- C3 counterexample: an account with *no* quota record uploads a file whose
declared size alone exceeds the 16106127360-byte ceiling, and the single-file
upload route accepts it and creates the node — the guard is
`storageStats && (usedStorage + size) > limit`, which is skipped when no
`StorageStats` record exists, so the clause "including an account that has
no quota record yet" of the claim is false for this route. -/
theorem C3_counterexample :
    16106127361 > quotaLimit
    ∧ statsFor ([] : List StatsRec) 1 = none
    ∧ (uploadSingle ⟨[], [], []⟩ 1
        ⟨"big.bin", "application/octet-stream", 16106127361, "k1"⟩ none 5 0).1
      = .ok ⟨5, "big.bin", "document", 16106127361, none⟩ true := by
  refine ⟨by decide, rfl, by decide⟩

/-- C3 amended: the single-file route enforces the ceiling only when a
`StorageStats` record exists — then an over-quota upload fails with the
quota error, creates no node and removes the persisted bytes, restoring the
state exactly; with no record the single-file route never reports
quota-exceeded, whatever the size.  The multi-file route instead treats a
missing record as zero usage, so it rejects an over-ceiling batch even for a
fresh account, removing every persisted key and creating no node. -/
theorem C3_theorem (st : SysState) (uid newId now : Nat) (req : UploadReq)
    (p : Option Nat) (reqs : List UploadReq) (newIds : List Nat) :
    (∀ s, statsFor st.stats uid = some s → s.usedStorage + req.size > quotaLimit →
      parentOk st.db uid p = true → req.filePath ∉ st.store →
      uploadSingle st uid req p newId now = (.quotaExceeded, st))
    ∧ (statsFor st.stats uid = none →
      (uploadSingle st uid req p newId now).1 ≠ .quotaExceeded)
    ∧ (statsFor st.stats uid = none → reqs.isEmpty = false →
      parentOk st.db uid p = true →
      (reqs.map (fun r => r.size)).sum > quotaLimit →
      (uploadMultiple st uid reqs p newIds now).1 = .quotaExceeded
      ∧ (uploadMultiple st uid reqs p newIds now).2.db = st.db
      ∧ ∀ k ∈ reqs.map (fun r => r.filePath),
          k ∉ (uploadMultiple st uid reqs p newIds now).2.store) := by
  refine ⟨?_, ?_, ?_⟩
  · intro s hs hover hpar hnotin
    have hqf : quotaFailsSingle st.stats uid req.size = true := by
      unfold quotaFailsSingle
      rw [hs]
      exact decide_eq_true hover
    rw [uploadSingle]
    simp only [hpar, Bool.not_true, Bool.false_eq_true, if_false, hqf, if_true]
    rw [unlink_append_self, unlink_of_not_mem st.store req.filePath hnotin]
  · intro hs
    have hqf : quotaFailsSingle st.stats uid req.size = false := by
      unfold quotaFailsSingle
      rw [hs]
    rw [uploadSingle]
    simp only [hqf, Bool.false_eq_true, if_false]
    by_cases hp : parentOk st.db uid p = true
    · simp only [hp, Bool.not_true, Bool.false_eq_true, if_false]
      cases hdup : findDuplicate st.db uid req.originalname req.size p <;> simp [hdup]
    · have hp2 : parentOk st.db uid p = false := by
        cases hval : parentOk st.db uid p
        · rfl
        · exact absurd hval hp
      simp [hp2]
  · intro hs hne hpar hover
    have hkey : uploadMultiple st uid reqs p newIds now
        = (.quotaExceeded, { st with
            store := unlinkAll (st.store ++ reqs.map (fun r => r.filePath))
              (reqs.map (fun r => r.filePath)) }) := by
      rw [uploadMultiple]
      simp only [hne, Bool.false_eq_true, if_false, hpar, Bool.not_true, hs]
      rw [if_pos (by simpa using hover)]
    refine ⟨by rw [hkey], by rw [hkey], ?_⟩
    intro k hk
    rw [hkey]
    exact not_mem_unlinkAll_of_mem (reqs.map (fun r => r.filePath)) _ k hk

theorem C3_witness :
    uploadSingle ⟨[], [], [⟨1, 16106127360⟩]⟩ 1 ⟨"a.bin", "application/octet-stream", 1, "k1"⟩
        none 5 0 = (.quotaExceeded, ⟨[], [], [⟨1, 16106127360⟩]⟩)
    ∧ (uploadSingle ⟨[], [], []⟩ 1 ⟨"a.bin", "application/octet-stream", 1, "k1"⟩
        none 5 0).1 ≠ .quotaExceeded
    ∧ ((uploadMultiple ⟨[], [], []⟩ 1 [⟨"big.bin", "application/octet-stream", 16106127361, "k1"⟩]
          none [5] 0).1 = .quotaExceeded
      ∧ (uploadMultiple ⟨[], [], []⟩ 1 [⟨"big.bin", "application/octet-stream", 16106127361, "k1"⟩]
          none [5] 0).2.db = ([] : DB)
      ∧ ∀ k ∈ [⟨"big.bin", "application/octet-stream", 16106127361, "k1"⟩].map
            (fun r : UploadReq => r.filePath),
          k ∉ (uploadMultiple ⟨[], [], []⟩ 1
            [⟨"big.bin", "application/octet-stream", 16106127361, "k1"⟩] none [5] 0).2.store) := by
  have h := C3_theorem ⟨[], [], [⟨1, 16106127360⟩]⟩ 1 5 0
    ⟨"a.bin", "application/octet-stream", 1, "k1"⟩ none [] []
  have h2 := C3_theorem ⟨[], [], []⟩ 1 5 0
    ⟨"a.bin", "application/octet-stream", 1, "k1"⟩ none
    [⟨"big.bin", "application/octet-stream", 16106127361, "k1"⟩] [5]
  refine ⟨?_, ?_, ?_⟩
  · exact h.1 ⟨1, 16106127360⟩ rfl (by decide) rfl (by decide)
  · exact h2.2.1 rfl
  · exact h2.2.2 rfl rfl rfl (by decide)

/-! ## C9: duplicate detection leaves the persisted bytes in place -/

/-- C9 counterexample: a duplicate-detected single upload answers success
with the existing node, but the freshly persisted content-store object (the
multer temp file) is *not* deleted — the duplicate branch never calls
`fs.unlinkSync`, so the key is still in the store afterwards, refuting the
claim that it is removed. -/
theorem C9_counterexample :
    (uploadSingle ⟨[dupNode], ["k0"], []⟩
      1 ⟨"a.txt", "text/plain", 4, "k1"⟩ none 5 0).1
      = .ok ⟨3, "a.txt", "document", 4, none⟩ false
    ∧ "k1" ∈ (uploadSingle ⟨[dupNode], ["k0"], []⟩
      1 ⟨"a.txt", "text/plain", 4, "k1"⟩ none 5 0).2.store := by
  refine ⟨by decide, by decide⟩

/-- C9 amended: whenever the duplicate check fires (after multer has already
persisted the incoming bytes), the route skips the node save and answers with
the identity of the existing node, but performs no content-store deletion: the
final store is exactly the old store plus the new key, which therefore
remains as an orphan. -/
theorem C9_theorem (st : SysState) (uid newId now : Nat) (req : UploadReq)
    (p : Option Nat) (ex : Node)
    (hpar : parentOk st.db uid p = true)
    (hq : quotaFailsSingle st.stats uid req.size = false)
    (hdup : findDuplicate st.db uid req.originalname req.size p = some ex) :
    uploadSingle st uid req p newId now
      = (.ok ⟨ex.id, ex.name, ex.ftype, ex.size, ex.parentFolder⟩ false,
         updateUserStats ⟨st.db, st.store ++ [req.filePath], st.stats⟩ uid)
    ∧ req.filePath ∈ (uploadSingle st uid req p newId now).2.store := by
  have hmain : uploadSingle st uid req p newId now
      = (.ok ⟨ex.id, ex.name, ex.ftype, ex.size, ex.parentFolder⟩ false,
         updateUserStats ⟨st.db, st.store ++ [req.filePath], st.stats⟩ uid) := by
    rw [uploadSingle]
    simp only [hpar, Bool.not_true, Bool.false_eq_true, if_false, hq, hdup]
  refine ⟨hmain, ?_⟩
  rw [hmain]
  simp [updateUserStats]

theorem C9_witness :
    uploadSingle ⟨[dupNode], ["k0"], []⟩
      1 ⟨"a.txt", "text/plain", 4, "k1"⟩ none 5 0
      = (.ok ⟨dupNode.id, dupNode.name, dupNode.ftype, dupNode.size, dupNode.parentFolder⟩ false,
         updateUserStats ⟨[dupNode], ["k0", "k1"], []⟩ 1)
    ∧ "k1" ∈ (uploadSingle ⟨[dupNode], ["k0"], []⟩
      1 ⟨"a.txt", "text/plain", 4, "k1"⟩ none 5 0).2.store :=
  C9_theorem ⟨[dupNode], ["k0"], []⟩ 1 5 0
    ⟨"a.txt", "text/plain", 4, "k1"⟩ none dupNode rfl rfl (by decide)

/-! ## C10: public-link download error handling -/

/-- C10: a public download by token answers not-found when no non-trashed
node carries the token — in particular when the node holding the token is in
trash (its `publicUrl` still set) — answers an error for folders, and in
none of these cases reaches the streaming branch. -/
theorem C10_theorem (db : DB) (token : String) (fsX : String → Bool) :
    (findPublic db token = none → publicDownload db token fsX = .notFound)
    ∧ ((∀ f ∈ db, f.publicUrl = some token → f.inTrash = true) →
        publicDownload db token fsX = .notFound)
    ∧ (∀ f, findPublic db token = some f → f.isFolder = true →
        publicDownload db token fsX = .folderErr)
    ∧ (∀ p, publicDownload db token fsX = .notFound ∨
        publicDownload db token fsX = .folderErr →
        publicDownload db token fsX ≠ .ok p) := by
  refine ⟨?_, ?_, ?_, ?_⟩
  · intro h
    rw [publicDownload, h]
  · intro h
    have hn : findPublic db token = none := by
      cases hq : findPublic db token with
      | none => rfl
      | some f =>
        exfalso
        have hp := List.find?_some hq
        have hm := List.mem_of_find?_eq_some hq
        simp only [Bool.and_eq_true, Bool.not_eq_true', beq_iff_eq] at hp
        have := h f hm hp.1
        rw [hp.2] at this
        exact Bool.false_ne_true this
    rw [publicDownload, hn]
  · intro f hq hfold
    rw [publicDownload, hq]
    simp [hfold]
  · intro p h
    rcases h with h | h <;> rw [h] <;> simp

theorem C10_witness :
    publicDownload [pubTrashedNode] "tok" (fun _ => true) = .notFound
    ∧ publicDownload [pubFolderNode] "tok" (fun _ => true) = .folderErr := by
  constructor
  · exact (C10_theorem [pubTrashedNode] "tok" (fun _ => true)).2.1 (by decide)
  · exact (C10_theorem [pubFolderNode] "tok" (fun _ => true)).2.2.1 pubFolderNode
      (by decide) rfl

/-! ## C5: the download path reconciler -/

/-- With the `found` slot already occupied, only a break-causing candidate
changes the answer of the per-directory loop. -/
theorem searchDirGo_some (fsize : Nat) (bn : Option String) :
    ∀ (l : List DirEntry) (a : DirEntry),
      searchDirGo fsize bn l (some a)
        = (l.find? (breakMatch fsize bn)).or (some a) := by
  intro l
  induction l with
  | nil => intro a; rfl
  | cons e rest ih =>
    intro a
    rw [searchDirGo]
    cases hfile : e.isFile with
    | false =>
      have hbm : ¬ breakMatch fsize bn e = true := by simp [breakMatch, hfile]
      rw [List.find?_cons_of_neg rest hbm]
      simp only [hfile, Bool.not_false, if_true]
      exact ih a
    | true =>
      cases hboth : entrySizeMatches fsize e && entryNameMatches bn e with
      | true =>
        have hbm : breakMatch fsize bn e = true := by simp [breakMatch, hfile, hboth]
        rw [List.find?_cons_of_pos rest hbm]
        simp [hfile, hboth, Option.or]
      | false =>
        cases hzero : (fsize == 0) && entryNameMatches bn e with
        | true =>
          have hbm : breakMatch fsize bn e = true := by
            simp [breakMatch, hfile, hboth, hzero]
          rw [List.find?_cons_of_pos rest hbm]
          simp [hfile, hboth, hzero, Option.or]
        | false =>
          have hbm : ¬ breakMatch fsize bn e = true := by
            simp [breakMatch, hfile, hboth, hzero]
          rw [List.find?_cons_of_neg rest hbm]
          simp only [hfile, Bool.not_true, Bool.false_eq_true, if_false, hboth,
            hzero, Option.isNone_some, Bool.false_and]
          exact ih a

/-- Characterisation of the per-directory loop started empty: the first
break-causing candidate wins; failing that, the first name-only candidate. -/
theorem searchDirGo_none (fsize : Nat) (bn : Option String) :
    ∀ l : List DirEntry,
      searchDirGo fsize bn l none
        = (l.find? (breakMatch fsize bn)).or (l.find? (nameOnly bn)) := by
  intro l
  induction l with
  | nil => rfl
  | cons e rest ih =>
    rw [searchDirGo]
    cases hfile : e.isFile with
    | false =>
      have hbm : ¬ breakMatch fsize bn e = true := by simp [breakMatch, hfile]
      have hno : ¬ nameOnly bn e = true := by simp [nameOnly, hfile]
      rw [List.find?_cons_of_neg rest hbm, List.find?_cons_of_neg rest hno]
      simp only [hfile, Bool.not_false, if_true]
      exact ih
    | true =>
      cases hboth : entrySizeMatches fsize e && entryNameMatches bn e with
      | true =>
        have hbm : breakMatch fsize bn e = true := by simp [breakMatch, hfile, hboth]
        rw [List.find?_cons_of_pos rest hbm]
        simp [hfile, hboth, Option.or]
      | false =>
        cases hzero : (fsize == 0) && entryNameMatches bn e with
        | true =>
          have hbm : breakMatch fsize bn e = true := by
            simp [breakMatch, hfile, hboth, hzero]
          rw [List.find?_cons_of_pos rest hbm]
          simp [hfile, hboth, hzero, Option.or]
        | false =>
          have hbm : ¬ breakMatch fsize bn e = true := by
            simp [breakMatch, hfile, hboth, hzero]
          rw [List.find?_cons_of_neg rest hbm]
          cases hname : entryNameMatches bn e with
          | true =>
            have hno : nameOnly bn e = true := by simp [nameOnly, hfile, hname]
            rw [List.find?_cons_of_pos rest hno]
            simp only [hfile, Bool.not_true, Bool.false_eq_true, if_false, hboth,
              hzero, Option.isNone_none, hname, Bool.and_self, if_true, Bool.true_and]
            exact searchDirGo_some fsize bn rest e
          | false =>
            have hno : ¬ nameOnly bn e = true := by simp [nameOnly, hname]
            rw [List.find?_cons_of_neg rest hno]
            simp only [hfile, Bool.not_true, Bool.false_eq_true, if_false, hboth,
              hzero, Option.isNone_none, hname, Bool.and_false, Bool.true_and]
            exact ih

/-- C5: when the recorded path of a download does not resolve, the reconciler (a)
fails with the content-missing error exactly when the fallback finds nothing,
leaving the collection untouched; (b) on success streams the found candidate
and persists its path onto the node (self-healing); (c) a candidate from the
directory of the owner wins outright; (d) the global search over the directories
of all accounts runs only when the directory of the owner yields nothing; and (e)
within a directory (for a file with non-zero recorded size) the first
candidate matching size-equality AND the case-insensitive base-name inclusion
wins, with the first name-only match as the fallback answer. -/
theorem C5_theorem (db : DB) (uid fid : Nat) (fsX : String → Bool)
    (ownEntries : List DirEntry) (allDirs : List (List DirEntry)) (f : Node)
    (hf : findAccessible db uid fid = some f)
    (hnf : f.isFolder = false)
    (hmiss : pathResolves fsX f.path = false) :
    (resolveFallback f.size (baseNameOfFile f) ownEntries allDirs = none →
      download db uid fid fsX ownEntries allDirs = (.contentMissing, db))
    ∧ (∀ e, resolveFallback f.size (baseNameOfFile f) ownEntries allDirs = some e →
      download db uid fid fsX ownEntries allDirs
        = (.ok e.epath, updateNode db fid fun g => { g with path := some e.epath }))
    ∧ (∀ e, searchDirGo f.size (baseNameOfFile f) ownEntries none = some e →
      resolveFallback f.size (baseNameOfFile f) ownEntries allDirs = some e)
    ∧ (searchDirGo f.size (baseNameOfFile f) ownEntries none = none →
      resolveFallback f.size (baseNameOfFile f) ownEntries allDirs
        = globalSearch f.size (baseNameOfFile f) allDirs)
    ∧ (∀ l : List DirEntry, searchDirGo f.size (baseNameOfFile f) l none
        = (l.find? (breakMatch f.size (baseNameOfFile f))).or
            (l.find? (nameOnly (baseNameOfFile f))))
    ∧ (f.size ≠ 0 → ∀ l : List DirEntry, searchDirGo f.size (baseNameOfFile f) l none
        = (l.find? fun e => e.isFile && entrySizeMatches f.size e
            && entryNameMatches (baseNameOfFile f) e).or
            (l.find? (nameOnly (baseNameOfFile f)))) := by
  refine ⟨?_, ?_, ?_, ?_, ?_, ?_⟩
  · intro h
    rw [download, hf]
    simp [hnf, hmiss, h]
  · intro e h
    rw [download, hf]
    simp [hnf, hmiss, h]
  · intro e h
    rw [resolveFallback, h]
  · intro h
    rw [resolveFallback, h]
  · exact searchDirGo_none f.size (baseNameOfFile f)
  · intro hsz l
    rw [searchDirGo_none f.size (baseNameOfFile f) l]
    have hpred : ∀ x ∈ l, breakMatch f.size (baseNameOfFile f) x
        = (x.isFile && entrySizeMatches f.size x
            && entryNameMatches (baseNameOfFile f) x) := by
      intro x _
      have h0 : (f.size == 0) = false := by
        cases hv : f.size == 0
        · rfl
        · exact absurd (by simpa using hv) hsz
      simp [breakMatch, h0, Bool.and_assoc]
    rw [find?_congr_mem _ _ l hpred]

theorem C5_witness :
    download [staleNode] 1 1 (fun _ => false)
      [⟨"a-123.txt", "up/1/a-123.txt", 4, true⟩] []
      = (.ok "up/1/a-123.txt",
         updateNode [staleNode] 1 fun g => { g with path := some "up/1/a-123.txt" }) :=
  ((C5_theorem [staleNode] 1 1 (fun _ => false)
      [⟨"a-123.txt", "up/1/a-123.txt", 4, true⟩] [] staleNode
      rfl rfl rfl).2.1) ⟨"a-123.txt", "up/1/a-123.txt", 4, true⟩ (by decide)

end Storage

namespace Storage

/-- Quick sanity example retained as a compiled fact: walking up from a child
folder reaches its parent. -/
example :
    checkIfSubfolder 5
      [{ id := 1, userId := 1, isFolder := true },
       { id := 2, userId := 1, isFolder := true, parentFolder := some 1 }]
      (some 2) 1 = some true := by decide

example :
    checkIfSubfolder 5
      [{ id := 1, userId := 1, isFolder := true },
       { id := 2, userId := 1, isFolder := true, parentFolder := some 1 }]
      (some 1) 2 = some false := by decide

end Storage
